import Mathlib

/-
Verification of the extension discovery / validation / composition core of
`mopidy/ext.py` against its natural-language specification.

The Python module is shallowly embedded:

* Python exceptions become an inductive `PyExc`; a call that may raise is a
  value of `Except PyExc _` (for calls) or `Option PyExc` (for `None`-returning
  calls such as `validate_environment`, where `none` means "returned normally").
* The external collaborators (`pkg_resources` entry points, the config-schema
  type system) are modelled by the data a candidate carries: an `EntryPoint`
  records its registration name and the outcome of `resolve()` and `require()`;
  a schema is an ordered association list of option name to config-value kind.
* `logging` calls become a list of `LogEvent`s (level + the names interpolated
  into the message), returned alongside each function's result.
* `Registry`, whose backing store is a Python `dict` (insertion ordered),
  becomes an insertion-ordered association list from keys to lists.
-/

namespace Mopidy

/-- Python exception values observable by the extension machinery.
`extensionError` models `mopidy.exceptions.ExtensionError`;
`distributionNotFound` and `versionConflict` model the two `pkg_resources`
failures that `validate_extension_data` distinguishes; `attributeError`,
`typeError`, `notImplementedError` and `other` model the remaining exception
classes a dynamic Python call can raise. -/
inductive PyExc where
  | extensionError (msg : String)
  | distributionNotFound (msg : String)
  | versionConflict (nargs : Nat)
  | attributeError
  | typeError
  | notImplementedError
  | other (tag : Nat)
deriving DecidableEq

/-- Logging levels used by `mopidy/ext.py`. `exc` stands for
`logger.exception` (error level with traceback), which the module reserves
for implementation bugs, as opposed to routine `info`/`warning`/`error`
disable messages. -/
inductive LogLevel where
  | debug
  | info
  | warning
  | error
  | exc
deriving DecidableEq

/-- A log record: its level and the names interpolated into the message
(entry point / extension names, schema keys). -/
structure LogEvent where
  level : LogLevel
  names : List String
deriving DecidableEq

/-- The kind of object stored under an option name in a config schema:
an instance of `config_lib.Boolean`, an instance of some other
`config_lib.ConfigValue` subclass, or an arbitrary object that is not a
`ConfigValue` at all. -/
inductive SchemaValue where
  | boolean
  | configValue (tag : Nat)
  | invalid (tag : Nat)
deriving DecidableEq

/-- Whether `isinstance(v, config_lib.ConfigValue)` holds. -/
def SchemaValue.isConfigValue : SchemaValue → Bool
  | .boolean => true
  | .configValue _ => true
  | .invalid _ => false

/-- `mopidy.config.ConfigSchema`, modelled per the spec's external interface
as an ordered mapping from option name to config-value kind. -/
abbrev ConfigSchema := List (String × SchemaValue)

/-- `schema.get(k)`: the value stored under `k`, if any. -/
def schemaGet : ConfigSchema → String → Option SchemaValue
  | [], _ => none
  | (k', v) :: rest, k => if k' = k then some v else schemaGet rest k

/-- The key of the first schema entry whose value is not a `ConfigValue`
instance, if any: the entry at which the `for key, value in ...items()`
loop of `validate_extension_data` returns `False`. -/
def firstInvalidKey : ConfigSchema → Option String
  | [] => none
  | (k, v) :: rest => if v.isConfigValue then firstInvalidKey rest else some k

/-- An instantiated `Extension` object. Attribute reads and method calls on a
third-party extension can raise, so each is recorded as an outcome:
`dist_name`, `ext_name`, `version` are the attribute reads; the next four
fields are the results of the correspondingly named methods
(`validate_environment` returns `None` on success, so `none` models a normal
return and `some e` a raised `e`). `setup_actions` records the
`registry.add(key, cls)` calls that `setup(registry)` performs (component
types are identified by `Nat` tags). -/
structure ExtensionInst where
  dist_name : Except PyExc String
  ext_name : Except PyExc String
  version : Except PyExc String
  get_config_schema : Except PyExc ConfigSchema
  get_default_config : Except PyExc String
  get_command : Except PyExc (Option Nat)
  validate_environment : Option PyExc
  setup_actions : List (String × Nat)

/-- What `entry_point.resolve()` resolved to: a non-class object (on which
`issubclass` raises `TypeError`), a class that is not an `Extension`
subclass, or an `Extension` subclass whose instantiation yields the recorded
outcome. -/
inductive Resolved where
  | nonClass (tag : Nat)
  | nonExtensionClass (tag : Nat)
  | extensionClass (instantiate : Except PyExc ExtensionInst)

/-- A `pkg_resources` entry point in the `mopidy.ext` namespace: its
registration name and the outcomes of `resolve()` and `require()`
(`none` means `require()` returned normally). -/
structure EntryPoint where
  name : String
  resolve : Except PyExc Resolved
  require : Option PyExc

/-- The `ExtensionData` named tuple built by `load_extensions`. -/
structure ExtensionData where
  extension : ExtensionInst
  entry_point : EntryPoint
  config_schema : ConfigSchema
  config_defaults : String
  command : Option Nat

/-! ## Registry -/

/-- `Registry._registry`, a Python `dict[str, list[type]]`: modelled as an
insertion-ordered association list. -/
structure Registry where
  pairs : List (String × List Nat)
deriving DecidableEq

/-- A pure (non-mutating) lookup of the list stored under `k`, used to state
properties; absent keys give `none`. (The Python class has no such
non-mutating read; `__getitem__` is `Registry.getItem` below.) -/
def lookupPairs : List (String × List Nat) → String → Option (List Nat)
  | [], _ => none
  | (k', l) :: rest, k => if k' = k then some l else lookupPairs rest k

def Registry.lookup (r : Registry) (k : String) : Option (List Nat) :=
  lookupPairs r.pairs k

/-- `self._registry.setdefault(name, []).append(cls)` on the backing list:
append `c` to the entry for `k`, creating the entry at the end if absent. -/
def addPairs : List (String × List Nat) → String → Nat → List (String × List Nat)
  | [], k, c => [(k, [c])]
  | (k', l) :: rest, k, c =>
    if k' = k then (k', l ++ [c]) :: rest else (k', l) :: addPairs rest k c

/-- `Registry.add(name, cls)`: `self._registry.setdefault(name, []).append(cls)`. -/
def Registry.add (r : Registry) (k : String) (c : Nat) : Registry :=
  ⟨addPairs r.pairs k c⟩

/-- `self._registry.setdefault(name, [])` on the backing list: return the
stored list and the (possibly extended) store. -/
def getPairs : List (String × List Nat) → String → List Nat × List (String × List Nat)
  | [], k => ([], [(k, [])])
  | (k', l) :: rest, k =>
    if k' = k then (l, (k', l) :: rest)
    else
      let r := getPairs rest k
      (r.1, (k', l) :: r.2)

/-- `Registry.__getitem__(name)`: `return self._registry.setdefault(name, [])`.
Returns the list stored under `name` together with the registry after the
read (reading an absent key inserts an empty list for it). -/
def Registry.getItem (r : Registry) (k : String) : List Nat × Registry :=
  ((getPairs r.pairs k).1, ⟨(getPairs r.pairs k).2⟩)

/-- `Registry.__len__`: `len(self._registry)`. -/
def Registry.length (r : Registry) : Nat :=
  r.pairs.length

/-- `Registry.__iter__`: `iter(self._registry)`, i.e. the keys in insertion
order. -/
def Registry.keys (r : Registry) : List String :=
  r.pairs.map (fun p => p.1)

/-! ## Discovery: `load_extensions` -/

/-- The body of the `for entry_point in pkg_resources.iter_entry_points(...)`
loop of `load_extensions`, for one entry point: either the `ExtensionData`
descriptor appended to `installed_extensions`, or `none` when one of the
`continue` branches was taken; paired with the log events emitted. -/
def process_entry_point (ep : EntryPoint) : Option ExtensionData × List LogEvent :=
  let dbg : LogEvent := ⟨.debug, [ep.name]⟩
  match ep.resolve with
  | .error _ => (none, [dbg, ⟨.exc, [ep.name]⟩])
  | .ok (.nonClass _) => (none, [dbg, ⟨.error, [ep.name]⟩])
  | .ok (.nonExtensionClass _) => (none, [dbg, ⟨.error, [ep.name]⟩])
  | .ok (.extensionClass (.error _)) => (none, [dbg, ⟨.exc, [ep.name]⟩])
  | .ok (.extensionClass (.ok ext)) =>
    match ext.dist_name with
    | .error _ => (none, [dbg, ⟨.exc, [ep.name]⟩])
    | .ok dn =>
      match ext.ext_name with
      | .error _ => (none, [dbg, ⟨.exc, [ep.name]⟩])
      | .ok _ =>
        match ext.version with
        | .error _ => (none, [dbg, ⟨.exc, [ep.name]⟩])
        | .ok ver =>
          match ext.get_config_schema with
          | .error _ => (none, [dbg, ⟨.exc, [ep.name]⟩])
          | .ok schema =>
            match ext.get_default_config with
            | .error _ => (none, [dbg, ⟨.exc, [ep.name]⟩])
            | .ok defaults =>
              match ext.get_command with
              | .error _ => (none, [dbg, ⟨.exc, [ep.name]⟩])
              | .ok cmd =>
                (some ⟨ext, ep, schema, defaults, cmd⟩,
                 [dbg, ⟨.debug, [dn, ver]⟩])

/-- The discovery loop over the enumerated entry points, accumulating the
descriptors of the candidates that survived and the log stream. -/
def load_loop : List EntryPoint → List ExtensionData × List LogEvent
  | [] => ([], [])
  | ep :: rest =>
    let r := process_entry_point ep
    let rs := load_loop rest
    (match r.1 with
     | some d => d :: rs.1
     | none => rs.1,
     r.2 ++ rs.2)

/-- `load_extensions()`: iterate the entry points enumerated under the
`mopidy.ext` plugin namespace (passed here as the list the enumeration
yields, in enumeration order), skip every candidate that fails to resolve,
is not an `Extension` subclass, or raises while being instantiated or while
its metadata attributes and `get_config_schema` / `get_default_config` /
`get_command` are read, and return the descriptors of the rest. The final
debug log lists the discovered extension names. -/
def load_extensions (eps : List EntryPoint) : List ExtensionData × List LogEvent :=
  let r := load_loop eps
  (r.1, r.2 ++ [⟨.debug, r.1.filterMap (fun d => d.extension.ext_name.toOption)⟩])

/-! ## Validation: `validate_extension_data` -/

/-- The outcome of a call to `validate_extension_data`: a returned boolean,
or an uncaught Python exception propagating to the caller. -/
inductive VResult where
  | ret (b : Bool)
  | raised (e : PyExc)
deriving DecidableEq

/-- `validate_extension_data(data)`, returning the outcome and the log
events emitted. The structure follows the source: the identity check
(`ext_name != entry_point.name` → warning, `False`); the dependency check
(`entry_point.require()` with handlers for exactly
`pkg_resources.DistributionNotFound` and `pkg_resources.VersionConflict`,
both → info, `False`; any other exception is uncaught and propagates); the
environment check (`validate_environment()` with `ExtensionError` → info,
`False`, and any other `Exception` → `logger.exception`, `False`); the
schema checks (non-empty, `enabled` is a `Boolean` instance, every value a
`ConfigValue` instance — each failure → error, `False`); the defaults check
(falsy `config_defaults` → error, `False`). Reading `data.extension.ext_name`
happens first (for the initial debug log), so a raising attribute read
propagates. -/
def validate_extension_data (data : ExtensionData) : VResult × List LogEvent :=
  match data.extension.ext_name with
  | .error e => (.raised e, [])
  | .ok extName =>
    let dbg : LogEvent := ⟨.debug, [extName]⟩
    if extName = data.entry_point.name then
      match data.entry_point.require with
      | some (.distributionNotFound msg) =>
          (.ret false, [dbg, ⟨.info, [extName, msg]⟩])
      | some (.versionConflict _) =>
          (.ret false, [dbg, ⟨.info, [extName]⟩])
      | some e => (.raised e, [dbg])
      | none =>
        match data.extension.validate_environment with
        | some (.extensionError msg) =>
            (.ret false, [dbg, ⟨.info, [extName, msg]⟩])
        | some _ =>
            (.ret false, [dbg, ⟨.exc, [extName]⟩])
        | none =>
          if data.config_schema.isEmpty then
            (.ret false, [dbg, ⟨.error, [extName]⟩])
          else if schemaGet data.config_schema "enabled" = some .boolean then
            match firstInvalidKey data.config_schema with
            | some key => (.ret false, [dbg, ⟨.error, [extName, key]⟩])
            | none =>
              if data.config_defaults = "" then
                (.ret false, [dbg, ⟨.error, [extName]⟩])
              else
                (.ret true, [dbg])
          else
            (.ret false, [dbg, ⟨.error, [extName]⟩])
    else
      (.ret false, [dbg, ⟨.warning, [data.entry_point.name, extName]⟩])

/-! ## Derived predicates used to state the claims -/

/-- A candidate survives every step of the discovery loop: it resolves to an
`Extension` subclass, instantiates, exposes the three metadata attributes,
and its `get_config_schema` / `get_default_config` / `get_command` calls all
return. -/
def fullyConstructible (ep : EntryPoint) : Bool :=
  match ep.resolve with
  | .ok (.extensionClass (.ok ext)) =>
    ext.dist_name.toOption.isSome && ext.ext_name.toOption.isSome
      && ext.version.toOption.isSome && ext.get_config_schema.toOption.isSome
      && ext.get_default_config.toOption.isSome && ext.get_command.toOption.isSome
  | _ => false

/-- The candidate resolves to an `Extension` subclass whose instantiation
raises. -/
def instantiationFails (ep : EntryPoint) : Bool :=
  match ep.resolve with
  | .ok (.extensionClass (.error _)) => true
  | _ => false

/-- `entry_point.require()` behaves within the collaborator interface the
spec describes: it returns, or fails with one of the two distinguished
dependency failures. -/
def requireWithinContract (o : Option PyExc) : Bool :=
  match o with
  | none => true
  | some (.distributionNotFound _) => true
  | some (.versionConflict _) => true
  | some _ => false

/-- The schema-shape condition of the validator: non-empty, an `enabled`
entry that is a `Boolean` instance, and every entry a `ConfigValue`
instance. -/
def schemaOk (s : ConfigSchema) : Bool :=
  !s.isEmpty && (schemaGet s "enabled" == some .boolean)
    && s.all (fun p => p.2.isConfigValue)

/-! ## Composition -/

/-- Modelled from the spec: the Composer is host code outside this module
("for each accepted descriptor, invokes its `setup(registry)` exactly once",
in discovery order). A single `setup(registry)` call performs the
`registry.add(key, cls)` calls recorded in `setup_actions`, in order. -/
def compose (ds : List ExtensionData) (r : Registry) : Registry :=
  ds.foldl
    (fun r d => d.extension.setup_actions.foldl (fun r p => r.add p.1 p.2) r)
    r

/-- Modelled from the spec: the bootstrap sequence "discover all candidates →
validate each → call `setup` on each accepted extension in discovery order",
starting from an empty registry. -/
def bootstrap (eps : List EntryPoint) : Registry :=
  compose
    (((load_extensions eps).1).filter
      (fun d => (validate_extension_data d).1 == VResult.ret true))
    ⟨[]⟩

/-- Some log event of a run, other than the initial debug line, mentions the
name `n` (used to state "the failure is logged with the extension's name"). -/
def logsDisableFor (logs : List LogEvent) (n : String) : Bool :=
  logs.any (fun ev => !(ev.level == LogLevel.debug) && decide (n ∈ ev.names))

/-! ## Concrete sample candidates (test data for witnesses and
counterexamples) -/

/-- A fully well-behaved extension instance. -/
def demoInst : ExtensionInst where
  dist_name := .ok "Mopidy-Demo"
  ext_name := .ok "demo"
  version := .ok "1.0"
  get_config_schema := .ok [("enabled", .boolean)]
  get_default_config := .ok "[demo]\nenabled = true"
  get_command := .ok none
  validate_environment := none
  setup_actions := [("backend", 1)]

/-- A well-behaved entry point for `demoInst`. -/
def demoEp : EntryPoint where
  name := "demo"
  resolve := .ok (.extensionClass (.ok demoInst))
  require := none

/-- The descriptor `load_extensions` builds for `demoEp`. -/
def demoData : ExtensionData where
  extension := demoInst
  entry_point := demoEp
  config_schema := [("enabled", .boolean)]
  config_defaults := "[demo]\nenabled = true"
  command := none

/-- A second well-behaved candidate. -/
def betaInst : ExtensionInst where
  dist_name := .ok "Mopidy-Beta"
  ext_name := .ok "beta"
  version := .ok "2.0"
  get_config_schema := .ok [("enabled", .boolean)]
  get_default_config := .ok "[beta]\nenabled = true"
  get_command := .ok none
  validate_environment := none
  setup_actions := [("frontend", 2)]

/-- Entry point for `betaInst`. -/
def betaEp : EntryPoint where
  name := "beta"
  resolve := .ok (.extensionClass (.ok betaInst))
  require := none

/-- A candidate that resolves to an `Extension` subclass whose constructor
raises. -/
def failEp : EntryPoint where
  name := "broken"
  resolve := .ok (.extensionClass (.error .typeError))
  require := none

/-- `demoData` with an `entry_point.require()` that raises an exception
which is neither `DistributionNotFound` nor `VersionConflict`. -/
def dataRequireRaises : ExtensionData :=
  { demoData with entry_point := { demoEp with require := some (PyExc.other 0) } }

/-- `demoData` registered under a mismatching entry point name. -/
def dataMismatchA : ExtensionData :=
  { demoData with entry_point := { demoEp with name := "alpha" } }

/-- Like `dataMismatchA` but with a raising dependency check, an empty
schema and empty defaults: the identity check must hide all of that. -/
def dataMismatchB : ExtensionData :=
  { demoData with
    entry_point := { demoEp with name := "alpha", require := some (PyExc.other 3) }
    config_schema := []
    config_defaults := "" }

/-- `demoData` whose `validate_environment` raises `ExtensionError`. -/
def dataEnvExtErr : ExtensionData :=
  { demoData with
    extension :=
      { demoInst with
        validate_environment := some (.extensionError "missing codec") } }

/-- `demoData` whose `validate_environment` raises an unexpected exception. -/
def dataEnvBug : ExtensionData :=
  { demoData with
    extension := { demoInst with validate_environment := some .typeError } }

/-- `demoData` with a schema lacking a boolean `enabled` entry. -/
def dataNoEnabled : ExtensionData :=
  { demoData with config_schema := [("foo", .configValue 0)] }

/-! ## Lemmas about the registry's backing association list -/

theorem lookupPairs_addPairs_self (ps : List (String × List Nat)) (k : String) (c : Nat) :
    lookupPairs (addPairs ps k c) k = some ((lookupPairs ps k).getD [] ++ [c]) := by
  induction ps with
  | nil => simp [addPairs, lookupPairs]
  | cons p rest ih =>
    obtain ⟨a, l⟩ := p
    by_cases ha : a = k
    · subst ha
      simp [addPairs, lookupPairs]
    · simp [addPairs, lookupPairs, ha, ih]

theorem lookupPairs_addPairs_ne (ps : List (String × List Nat)) (k k' : String) (c : Nat)
    (h : k' ≠ k) : lookupPairs (addPairs ps k c) k' = lookupPairs ps k' := by
  induction ps with
  | nil => simp [addPairs, lookupPairs, h.symm]
  | cons p rest ih =>
    obtain ⟨a, l⟩ := p
    by_cases ha : a = k
    · subst ha
      have hak : a ≠ k' := fun hh => h hh.symm
      simp [addPairs, lookupPairs, hak]
    · simp [addPairs, lookupPairs, ha, ih]

theorem getPairs_of_none (ps : List (String × List Nat)) (k : String)
    (h : lookupPairs ps k = none) : getPairs ps k = ([], ps ++ [(k, [])]) := by
  induction ps with
  | nil => simp [getPairs]
  | cons p rest ih =>
    obtain ⟨a, l⟩ := p
    by_cases ha : a = k
    · simp [lookupPairs, ha] at h
    · simp only [lookupPairs, if_neg ha] at h
      simp [getPairs, ha, ih h]

theorem getPairs_of_some (ps : List (String × List Nat)) (k : String) (l : List Nat)
    (h : lookupPairs ps k = some l) : getPairs ps k = (l, ps) := by
  induction ps with
  | nil => simp [lookupPairs] at h
  | cons p rest ih =>
    obtain ⟨a, l'⟩ := p
    by_cases ha : a = k
    · simp only [lookupPairs, if_pos ha, Option.some.injEq] at h
      subst h
      simp [getPairs, ha]
    · simp only [lookupPairs, if_neg ha] at h
      simp [getPairs, ha, ih h]

theorem lookupPairs_append_self (ps : List (String × List Nat)) (k : String) (v : List Nat)
    (h : lookupPairs ps k = none) : lookupPairs (ps ++ [(k, v)]) k = some v := by
  induction ps with
  | nil => simp [lookupPairs]
  | cons p rest ih =>
    obtain ⟨a, l⟩ := p
    by_cases ha : a = k
    · simp [lookupPairs, ha] at h
    · simp only [lookupPairs, if_neg ha] at h
      simp [lookupPairs, ha, ih h]

theorem lookupPairs_append_ne (ps : List (String × List Nat)) (k k' : String) (v : List Nat)
    (h : k' ≠ k) : lookupPairs (ps ++ [(k, v)]) k' = lookupPairs ps k' := by
  induction ps with
  | nil => simp [lookupPairs, h.symm]
  | cons p rest ih =>
    obtain ⟨a, l⟩ := p
    by_cases ha : a = k'
    · simp [lookupPairs, ha]
    · simp [lookupPairs, ha, ih]

theorem not_mem_keys_of_lookup_none (ps : List (String × List Nat)) (k : String)
    (h : lookupPairs ps k = none) : k ∉ ps.map (fun p => p.1) := by
  induction ps with
  | nil => simp
  | cons p rest ih =>
    obtain ⟨a, l⟩ := p
    by_cases ha : a = k
    · simp [lookupPairs, ha] at h
    · simp only [lookupPairs, if_neg ha] at h
      simp only [List.map_cons, List.mem_cons]
      push_neg
      exact ⟨fun hh => ha hh.symm, ih h⟩

/-! ## Claims about the Registry -/

/-- C5: `Registry.add` appends the component type at the end of the sequence
stored under the key (creating the key when absent), leaves the sequence
under every other key unchanged, and never deduplicates; in particular two
adds on a previously untouched `"backend"` key yield exactly `[T1, T2]`
(also when `T1 = T2`, since the first conjunct applies to any stored
sequence). -/
theorem registry_add_appends_in_order :
    (∀ (r : Registry) (k : String) (c : Nat),
        (r.add k c).lookup k = some ((r.lookup k).getD [] ++ [c])
        ∧ ∀ k', k' ≠ k → (r.add k c).lookup k' = r.lookup k')
    ∧ ∀ (r : Registry) (t1 t2 : Nat), r.lookup "backend" = none →
        ((r.add "backend" t1).add "backend" t2).lookup "backend" = some [t1, t2] := by
  constructor
  · intro r k c
    exact ⟨lookupPairs_addPairs_self r.pairs k c,
      fun k' h => lookupPairs_addPairs_ne r.pairs k k' c h⟩
  · intro r t1 t2 h
    have h1 := lookupPairs_addPairs_self r.pairs "backend" t1
    rw [Registry.lookup] at h
    rw [h] at h1
    have h2 := lookupPairs_addPairs_self (addPairs r.pairs "backend" t1) "backend" t2
    rw [h1] at h2
    simpa [Registry.add, Registry.lookup] using h2

theorem registry_add_appends_in_order_witness :
    ((Registry.mk [("x", [5])]).add "backend" 1).lookup "x" = some [5]
    ∧ (((Registry.mk []).add "backend" 1).add "backend" 2).lookup "backend"
        = some [1, 2] :=
  ⟨(registry_add_appends_in_order.1 ⟨[("x", [5])]⟩ "backend" 1).2 "x" (by decide),
    registry_add_appends_in_order.2 ⟨[]⟩ 1 2 rfl⟩

/-- C6: reading a never-added key via `Registry.__getitem__` does not raise
(the embedding is total), returns the empty sequence, and a second read of
the same key returns the same (still empty) stored sequence and leaves the
registry exactly as it was after the first read: repeated reads are
idempotent. ("The same sequence object": after the first read the empty
list is stored under the key, and the second read returns the stored
entry unchanged.) -/
theorem registry_read_absent_key_idempotent (r : Registry) (k : String)
    (h : r.lookup k = none) :
    (r.getItem k).1 = []
    ∧ (r.getItem k).2.getItem k = ([], (r.getItem k).2) := by
  have hg := getPairs_of_none r.pairs k h
  have hl : ((r.getItem k).2).lookup k = some [] := by
    simp only [Registry.getItem, hg, Registry.lookup]
    exact lookupPairs_append_self r.pairs k [] h
  refine ⟨by simp [Registry.getItem, hg], ?_⟩
  have hgs := getPairs_of_some ((r.getItem k).2).pairs k [] hl
  simp only [Registry.getItem] at hgs
  simp [Registry.getItem, hgs]

theorem registry_read_absent_key_idempotent_witness :
    ((Registry.mk [("backend", [7])]).getItem "unknown").1 = []
    ∧ ((Registry.mk [("backend", [7])]).getItem "unknown").2.getItem "unknown"
        = ([], ((Registry.mk [("backend", [7])]).getItem "unknown").2) :=
  registry_read_absent_key_idempotent ⟨[("backend", [7])]⟩ "unknown" (by decide)

/-- C9: reading a never-added key via `Registry.__getitem__` observably
mutates the registry: `len` grows by one, the key was not in the iteration
keys before but is afterwards, the stored sequence under it is empty, and
the sequences stored under all other keys are unchanged. -/
theorem registry_read_absent_key_mutates (r : Registry) (k : String)
    (h : r.lookup k = none) :
    (r.getItem k).2.length = r.length + 1
    ∧ k ∉ r.keys
    ∧ k ∈ (r.getItem k).2.keys
    ∧ (r.getItem k).2.lookup k = some []
    ∧ ∀ k', k' ≠ k → (r.getItem k).2.lookup k' = r.lookup k' := by
  have hg := getPairs_of_none r.pairs k h
  refine ⟨?_, ?_, ?_, ?_, ?_⟩
  · simp [Registry.getItem, hg, Registry.length]
  · exact not_mem_keys_of_lookup_none r.pairs k h
  · simp [Registry.getItem, hg, Registry.keys]
  · simp only [Registry.getItem, hg, Registry.lookup]
    exact lookupPairs_append_self r.pairs k [] h
  · intro k' hk
    simp only [Registry.getItem, hg, Registry.lookup]
    exact lookupPairs_append_ne r.pairs k k' [] hk

theorem registry_read_absent_key_mutates_witness :
    ((Registry.mk [("backend", [7])]).getItem "unknown").2.length
        = (Registry.mk [("backend", [7])]).length + 1
    ∧ "unknown" ∉ (Registry.mk [("backend", [7])]).keys
    ∧ "unknown" ∈ ((Registry.mk [("backend", [7])]).getItem "unknown").2.keys
    ∧ ((Registry.mk [("backend", [7])]).getItem "unknown").2.lookup "backend"
        = some [7] := by
  have h := registry_read_absent_key_mutates ⟨[("backend", [7])]⟩ "unknown" (by decide)
  exact ⟨h.1, h.2.1, h.2.2.1, (h.2.2.2.2 "backend" (by decide)).trans (by decide)⟩

/-! ## Lemmas about schemas -/

theorem firstInvalidKey_eq_none_iff (s : ConfigSchema) :
    firstInvalidKey s = none ↔ s.all (fun p => p.2.isConfigValue) = true := by
  induction s with
  | nil => simp [firstInvalidKey]
  | cons p rest ih =>
    obtain ⟨k, v⟩ := p
    by_cases hv : v.isConfigValue = true <;> simp [firstInvalidKey, hv, ih]

/-! ## Claims about the validator -/

/-- C3: when the extension's `ext_name` differs from the entry point's
registration name, `validate_extension_data` returns `False` at once, and
its whole observable behaviour (result and logs) is independent of the
dependency-check, environment-check, schema and defaults data: any two
descriptors agreeing on the two names produce identical runs, so none of
the later checks is attempted. -/
theorem validate_identity_mismatch_short_circuits
    (d₁ d₂ : ExtensionData) (n : String)
    (h₁ : d₁.extension.ext_name = Except.ok n)
    (h₂ : d₂.extension.ext_name = Except.ok n)
    (hep : d₁.entry_point.name = d₂.entry_point.name)
    (hne : n ≠ d₁.entry_point.name) :
    (validate_extension_data d₁).1 = VResult.ret false
    ∧ validate_extension_data d₁ = validate_extension_data d₂ := by
  constructor
  · simp [validate_extension_data, h₁, if_neg hne]
  · simp [validate_extension_data, h₁, h₂, ← hep, if_neg hne]

theorem validate_identity_mismatch_short_circuits_witness :
    (validate_extension_data dataMismatchA).1 = VResult.ret false
    ∧ validate_extension_data dataMismatchA = validate_extension_data dataMismatchB :=
  validate_identity_mismatch_short_circuits dataMismatchA dataMismatchB "demo"
    rfl rfl rfl (by decide)

/-- C7: for a descriptor that passes the identity check and whose dependency
check returns normally: an `ExtensionError` from `validate_environment`
yields `False` with the error's message logged at info level (a routine
disable); any other exception yields `False` logged via `logger.exception`
(an implementation bug); and when `validate_environment` raises, the run is
independent of the schema, defaults and command data, so the schema and
defaults checks run only on a normal return. -/
theorem validate_environment_check_behaviour
    (d : ExtensionData) (n : String)
    (hname : d.extension.ext_name = Except.ok n)
    (hid : n = d.entry_point.name)
    (hreq : d.entry_point.require = none) :
    (∀ msg, d.extension.validate_environment = some (PyExc.extensionError msg) →
        validate_extension_data d
          = (VResult.ret false, [⟨.debug, [n]⟩, ⟨.info, [n, msg]⟩]))
    ∧ (∀ e, d.extension.validate_environment = some e →
        (∀ msg, e ≠ PyExc.extensionError msg) →
        validate_extension_data d
          = (VResult.ret false, [⟨.debug, [n]⟩, ⟨.exc, [n]⟩]))
    ∧ (∀ e, d.extension.validate_environment = some e →
        ∀ (s : ConfigSchema) (df : String) (c : Option Nat),
          validate_extension_data
              { d with config_schema := s, config_defaults := df, command := c }
            = validate_extension_data d) := by
  subst hid
  refine ⟨?_, ?_, ?_⟩
  · intro msg henv
    simp [validate_extension_data, hname, hreq, henv]
  · intro e henv hnc
    cases e with
    | extensionError msg => exact absurd rfl (hnc msg)
    | _ => simp [validate_extension_data, hname, hreq, henv]
  · intro e henv s df c
    cases e <;>
      simp [validate_extension_data, hname, hreq, henv]

theorem validate_environment_check_behaviour_witness :
    validate_extension_data dataEnvExtErr
      = (VResult.ret false,
         [⟨.debug, ["demo"]⟩, ⟨.info, ["demo", "missing codec"]⟩])
    ∧ validate_extension_data dataEnvBug
      = (VResult.ret false, [⟨.debug, ["demo"]⟩, ⟨.exc, ["demo"]⟩])
    ∧ validate_extension_data
        { dataEnvBug with config_schema := [], config_defaults := "x", command := some 9 }
      = validate_extension_data dataEnvBug :=
  ⟨(validate_environment_check_behaviour dataEnvExtErr "demo" rfl rfl rfl).1
      "missing codec" rfl,
   (validate_environment_check_behaviour dataEnvBug "demo" rfl rfl rfl).2.1
      PyExc.typeError rfl (by intro msg h; cases h),
   (validate_environment_check_behaviour dataEnvBug "demo" rfl rfl rfl).2.2
      PyExc.typeError rfl [] "x" (some 9)⟩

/-- C4: a descriptor that reaches the schema check (identity match,
dependency and environment checks return normally) is rejected whenever the
schema-shape condition fails: the schema is empty, or its `enabled` entry is
not a `Boolean` instance (in particular when there is no `enabled` entry at
all), or some entry is not a `ConfigValue` instance. -/
theorem validate_rejects_bad_schema
    (d : ExtensionData) (n : String)
    (hname : d.extension.ext_name = Except.ok n)
    (hid : n = d.entry_point.name)
    (hreq : d.entry_point.require = none)
    (henv : d.extension.validate_environment = none)
    (hbad : schemaOk d.config_schema = false) :
    (validate_extension_data d).1 = VResult.ret false := by
  subst hid
  by_cases h1 : d.config_schema.isEmpty = true
  · simp [validate_extension_data, hname, hreq, henv, h1]
  · by_cases h2 : schemaGet d.config_schema "enabled" = some SchemaValue.boolean
    · have hall : ¬ (d.config_schema.all (fun p => p.2.isConfigValue) = true) := by
        intro hall
        simp [schemaOk, h1, h2, hall] at hbad
      obtain ⟨key, hkey⟩ : ∃ key, firstInvalidKey d.config_schema = some key := by
        rcases hfk : firstInvalidKey d.config_schema with _ | key
        · exact absurd ((firstInvalidKey_eq_none_iff _).1 hfk) hall
        · exact ⟨key, rfl⟩
      simp [validate_extension_data, hname, hreq, henv, h1, h2, hkey]
    · simp [validate_extension_data, hname, hreq, henv, h1, h2]

theorem validate_rejects_bad_schema_witness :
    schemaOk dataNoEnabled.config_schema = false
    ∧ (validate_extension_data dataNoEnabled).1 = VResult.ret false :=
  ⟨by decide,
   validate_rejects_bad_schema dataNoEnabled "demo" rfl rfl rfl rfl (by decide)⟩

/-- C1 counterexample: on a descriptor whose `entry_point.require()` raises
an exception that is neither `pkg_resources.DistributionNotFound` nor
`pkg_resources.VersionConflict` (as `pkg_resources` can, e.g.
`UnknownExtra`, or any error raised while reading broken distribution
metadata), the exception escapes `validate_extension_data` instead of being
caught and converted into a `False` result — the claim "never propagates an
exception to its caller: any failure arising during the ... dependency ...
checks is caught" fails at this input. -/
theorem validate_raises_on_unexpected_require_exc :
    (validate_extension_data dataRequireRaises).1 = VResult.raised (PyExc.other 0) := by
  decide

/-- C1 (amended): for every descriptor (one whose `ext_name` attribute read
succeeds, as it does for every descriptor discovery builds) whose
`entry_point.require()` behaves within the collaborator interface —
returning normally, or failing with one of the two distinguished dependency
failures — `validate_extension_data` returns a boolean and never propagates
an exception: every failure arising during the identity, dependency,
environment, schema, or defaults checks is caught, logged (at a non-debug
level) with the extension's name, and converted into a `False` result.
The amendment, forced by `validate_raises_on_unexpected_require_exc`: an
exception of any other class raised by the dependency check is not caught
and propagates to the caller. -/
theorem validate_returns_bool_and_logs_amended
    (d : ExtensionData) (n : String)
    (hname : d.extension.ext_name = Except.ok n)
    (hreq : requireWithinContract d.entry_point.require = true) :
    (validate_extension_data d).1 = VResult.ret true
    ∨ ((validate_extension_data d).1 = VResult.ret false
        ∧ logsDisableFor (validate_extension_data d).2 n = true) := by
  by_cases hid : n = d.entry_point.name
  · rcases hr : d.entry_point.require with _ | e
    · rcases he : d.extension.validate_environment with _ | e'
      · by_cases h1 : d.config_schema.isEmpty = true
        · right
          simp [validate_extension_data, hname, hid, hr, he, h1, logsDisableFor]
        · by_cases h2 : schemaGet d.config_schema "enabled" = some SchemaValue.boolean
          · rcases hfk : firstInvalidKey d.config_schema with _ | key
            · by_cases hdf : d.config_defaults = ""
              · right
                simp [validate_extension_data, hname, hid, hr, he, h1, h2, hfk,
                  hdf, logsDisableFor]
              · left
                simp [validate_extension_data, hname, hid, hr, he, h1, h2, hfk, hdf]
            · right
              simp [validate_extension_data, hname, hid, hr, he, h1, h2, hfk,
                logsDisableFor]
          · right
            simp [validate_extension_data, hname, hid, hr, he, h1, h2, logsDisableFor]
      · right
        cases e' <;>
          simp [validate_extension_data, hname, hid, hr, he, logsDisableFor]
    · cases e <;> simp [requireWithinContract, hr] at hreq <;> right <;>
        simp [validate_extension_data, hname, hid, hr, logsDisableFor]
  · right
    simp [validate_extension_data, hname, hid, logsDisableFor]

theorem validate_returns_bool_and_logs_amended_witness :
    (validate_extension_data dataNoEnabled).1 = VResult.ret true
    ∨ ((validate_extension_data dataNoEnabled).1 = VResult.ret false
        ∧ logsDisableFor (validate_extension_data dataNoEnabled).2 "demo" = true) :=
  validate_returns_bool_and_logs_amended dataNoEnabled "demo" rfl rfl

/-! ## Lemmas about discovery -/

theorem load_loop_fst (eps : List EntryPoint) :
    (load_loop eps).1 = eps.filterMap (fun ep => (process_entry_point ep).1) := by
  induction eps with
  | nil => rfl
  | cons ep rest ih =>
    simp only [load_loop, List.filterMap_cons]
    rcases hp : (process_entry_point ep).1 with _ | d <;> simp [hp, ih]

theorem load_extensions_fst (eps : List EntryPoint) :
    (load_extensions eps).1 = (load_loop eps).1 := rfl

theorem process_isSome_iff (ep : EntryPoint) :
    ((process_entry_point ep).1).isSome = fullyConstructible ep := by
  rcases hr : ep.resolve with e | r
  · simp [process_entry_point, fullyConstructible, hr]
  · rcases r with t | t | inst
    · simp [process_entry_point, fullyConstructible, hr]
    · simp [process_entry_point, fullyConstructible, hr]
    · rcases inst with e | ext
      · simp [process_entry_point, fullyConstructible, hr]
      · rcases h1 : ext.dist_name with e1 | dn <;>
          rcases h2 : ext.ext_name with e2 | en <;>
          rcases h3 : ext.version with e3 | v <;>
          rcases h4 : ext.get_config_schema with e4 | s <;>
          rcases h5 : ext.get_default_config with e5 | df <;>
          rcases h6 : ext.get_command with e6 | c <;>
          simp [process_entry_point, fullyConstructible, hr, h1, h2, h3, h4, h5, h6,
            Except.toOption]

theorem process_none_of_instantiationFails (ep : EntryPoint)
    (h : instantiationFails ep = true) : (process_entry_point ep).1 = none := by
  rcases hr : ep.resolve with e | r
  · simp [instantiationFails, hr] at h
  · rcases r with t | t | inst
    · simp [instantiationFails, hr] at h
    · simp [instantiationFails, hr] at h
    · rcases inst with e | ext
      · simp [process_entry_point, hr]
      · simp [instantiationFails, hr] at h

set_option linter.unnecessarySeqFocus false in
theorem process_entry_point_eq (ep : EntryPoint) (d : ExtensionData)
    (h : (process_entry_point ep).1 = some d) : d.entry_point = ep := by
  rcases hr : ep.resolve with e | r
  · simp [process_entry_point, hr] at h
  · rcases r with t | t | inst
    · simp [process_entry_point, hr] at h
    · simp [process_entry_point, hr] at h
    · rcases inst with e | ext
      · simp [process_entry_point, hr] at h
      · rcases h1 : ext.dist_name with e1 | dn <;>
          rcases h2 : ext.ext_name with e2 | en <;>
          rcases h3 : ext.version with e3 | v <;>
          rcases h4 : ext.get_config_schema with e4 | s <;>
          rcases h5 : ext.get_default_config with e5 | df <;>
          rcases h6 : ext.get_command with e6 | c <;>
          simp [process_entry_point, hr, h1, h2, h3, h4, h5, h6] at h <;>
          simp [← h]

theorem filterMap_length_of_all_isSome {α β : Type} (f : α → Option β) (l : List α)
    (h : ∀ x ∈ l, (f x).isSome = true) : (l.filterMap f).length = l.length := by
  induction l with
  | nil => rfl
  | cons a rest ih =>
    have ha := h a (by simp)
    rcases hf : f a with _ | b
    · simp [hf] at ha
    · simp only [List.filterMap_cons, hf, List.length_cons]
      rw [ih (fun x hx => h x (by simp [hx]))]

/-! ## Claims about discovery -/

/-- C2: `load_extensions` is a total function (the embedding returns a value
on every candidate list: it never raises), its result is exactly the
per-candidate outcomes of the loop body in order, a candidate yields a
descriptor exactly when it is fully constructible (resolves to an
`Extension` subclass, instantiates, exposes the three metadata attributes,
and its three descriptor-building calls return), and when exactly one of N
candidates fails at instantiation the result has exactly N−1 descriptors. -/
theorem load_extensions_skips_failing_candidates :
    (∀ eps : List EntryPoint,
        (load_extensions eps).1
          = eps.filterMap (fun ep => (process_entry_point ep).1))
    ∧ (∀ ep : EntryPoint, ((process_entry_point ep).1).isSome = fullyConstructible ep)
    ∧ ∀ (pre post : List EntryPoint) (bad : EntryPoint),
        (∀ x ∈ pre, fullyConstructible x = true) →
        (∀ x ∈ post, fullyConstructible x = true) →
        instantiationFails bad = true →
        (load_extensions (pre ++ bad :: post)).1.length
          = (pre ++ bad :: post).length - 1 := by
  refine ⟨fun eps => load_loop_fst eps, process_isSome_iff, ?_⟩
  intro pre post bad hpre hpost hbad
  rw [load_extensions_fst, load_loop_fst, List.filterMap_append, List.filterMap_cons,
    process_none_of_instantiationFails bad hbad]
  rw [List.length_append,
    filterMap_length_of_all_isSome _ pre
      (fun x hx => (process_isSome_iff x).trans (hpre x hx)),
    filterMap_length_of_all_isSome _ post
      (fun x hx => (process_isSome_iff x).trans (hpost x hx)),
    List.length_append, List.length_cons]
  omega

theorem load_extensions_skips_failing_candidates_witness :
    (load_extensions [demoEp, failEp, betaEp]).1.length
      = [demoEp, failEp, betaEp].length - 1 :=
  load_extensions_skips_failing_candidates.2.2 [demoEp] [betaEp] failEp
    (by decide) (by decide) (by decide)

/-- C10: `load_extensions` produces at most one descriptor per entry point,
in exactly the order the plugin namespace enumerates the entry points (the
result is the per-candidate `filterMap` of the enumeration, and the entry
points of the returned descriptors form a subsequence of the enumeration);
no sorting by candidate name is applied. -/
theorem load_extensions_enumeration_order (eps : List EntryPoint) :
    (load_extensions eps).1
      = eps.filterMap (fun ep => (process_entry_point ep).1)
    ∧ List.Sublist ((load_extensions eps).1.map (fun d => d.entry_point)) eps := by
  refine ⟨load_loop_fst eps, ?_⟩
  rw [load_extensions_fst, load_loop_fst]
  induction eps with
  | nil => simp
  | cons ep rest ih =>
    rcases hp : (process_entry_point ep).1 with _ | d
    · simp only [List.filterMap_cons, hp]
      exact ih.cons ep
    · simp only [List.filterMap_cons, hp, List.map_cons]
      rw [process_entry_point_eq ep d hp]
      exact ih.cons₂ ep

/-- C8: discovery, validation, and composition are deterministic: equal
candidate lists (in this embedding all external collaborator behaviour —
resolution, instantiation, dependency and environment check outcomes — is
part of the `EntryPoint` data, so "unchanged candidate set with the same
collaborator behaviour" is equality of inputs) give identical descriptor
lists, identical validation runs, and identical registry contents after the
bootstrap composition. -/
theorem discovery_validation_deterministic (eps₁ eps₂ : List EntryPoint)
    (h : eps₁ = eps₂) :
    load_extensions eps₁ = load_extensions eps₂
    ∧ (load_extensions eps₁).1.map validate_extension_data
        = (load_extensions eps₂).1.map validate_extension_data
    ∧ bootstrap eps₁ = bootstrap eps₂ := by
  subst h
  exact ⟨rfl, rfl, rfl⟩

theorem discovery_validation_deterministic_witness :
    load_extensions [demoEp, betaEp] = load_extensions [demoEp, betaEp]
    ∧ (load_extensions [demoEp, betaEp]).1.map validate_extension_data
        = (load_extensions [demoEp, betaEp]).1.map validate_extension_data
    ∧ bootstrap [demoEp, betaEp] = bootstrap [demoEp, betaEp] :=
  discovery_validation_deterministic [demoEp, betaEp] [demoEp, betaEp] rfl

end Mopidy
